import Mathlib

/-!
Verification development for the P4 report generator (`generate_report.py`).

The Python source is embedded shallowly: each function below models the
corresponding Python function on explicit inputs.  External effects
(child-process execution, the HTTP exchange) are modelled by passing the
observable outcome of the effect as an explicit argument, exactly at the
granularity the Python code inspects it.  Python string primitives
(`split`, `strip`, `startswith`, `replace`, lexicographic `<=`) are
re-implemented structurally on `List Char` so that all definitions are
executable and kernel-reducible.
-/

namespace ReportGen

/-- Characters that Python's default `str.split()` / `str.strip()` treat as
whitespace (the ASCII subset; the source only ever meets ASCII). -/
def isPySpace (c : Char) : Bool :=
  c = ' ' || c = '\t' || c = '\n' || c = '\r' || c = '\x0b' || c = '\x0c'

/-- Python `s.startswith(p)`. -/
def pyStartsWith (s p : String) : Bool :=
  p.data.isPrefixOf s.data

/-- Python `s.strip()` on character lists: drop whitespace on both ends. -/
def pyStripList (l : List Char) : List Char :=
  ((l.dropWhile isPySpace).reverse.dropWhile isPySpace).reverse

/-- Python `s.strip()`. -/
def pyStrip (s : String) : String :=
  String.mk (pyStripList s.data)

/-- Helper for `pySplit`: the accumulator holds the current token reversed. -/
def pySplitAux : List Char → List Char → List (List Char)
  | [], acc => if acc.isEmpty then [] else [acc.reverse]
  | c :: cs, acc =>
    if isPySpace c then
      if acc.isEmpty then pySplitAux cs [] else acc.reverse :: pySplitAux cs []
    else pySplitAux cs (c :: acc)

/-- Python `s.split()` with no separator: split on whitespace runs and drop
empty tokens. -/
def pySplit (s : String) : List String :=
  (pySplitAux s.data []).map String.mk

/-- Python `s.split(sep)` for a one-character separator, on char lists. -/
def splitOnCharList (sep : Char) : List Char → List (List Char)
  | [] => [[]]
  | c :: cs =>
    if c = sep then [] :: splitOnCharList sep cs
    else
      match splitOnCharList sep cs with
      | [] => [[c]]
      | h :: t => (c :: h) :: t

/-- Python `s.split('\n')` as used at generate_report.py lines 36 and 61. -/
def pySplitLines (s : String) : List String :=
  (splitOnCharList '\n' s.data).map String.mk

/-- Lexicographic order by code point on char lists: Python string `<=`. -/
def lexLe : List Char → List Char → Bool
  | [], _ => true
  | _ :: _, [] => false
  | a :: xs, b :: ys =>
    if a.toNat < b.toNat then true
    else if b.toNat < a.toNat then false
    else lexLe xs ys

/-- Python string comparison `a <= b`. -/
def pyStrLe (a b : String) : Bool := lexLe a.data b.data

/-- Python `s.replace('-', '/')`, the only use of `replace` in the source
(date normalisation at lines 66-67 and 122-123). -/
def dashToSlash (s : String) : String :=
  String.mk (s.data.map fun c => if c = '-' then '/' else c)

/-- A parsed pending change: the dict built at generate_report.py
lines 84-89. -/
structure ChangeRecord where
  number : String
  date : String
  header : String
  description : List String
deriving DecidableEq

/-- The in-range test of lines 75-77 and 97-99:
`change_date >= start` and, when an end date is set, `change_date <= end`. -/
def inRangeB (change_date start_date_str : String) (end_date_str : Option String) : Bool :=
  match end_date_str with
  | some e => pyStrLe start_date_str change_date && pyStrLe change_date e
  | none => pyStrLe start_date_str change_date

/-- Loop state of `parse_pending_changes`.  Python appends the current dict
to `changes` by reference, so a dict appended while still current keeps
tracking later description mutations, and may even be appended several times
(this happens when a line starts with `"Change "` but has fewer than 4
tokens).  We model the aliasing exactly by counting, in `curCount`, how many
times the current record has been appended but not yet flushed; the pending
copies are materialised only once the record stops being current, at which
point its final value is known. -/
structure ParseState where
  changes : List ChangeRecord
  current : Option ChangeRecord
  curCount : Nat
deriving DecidableEq

/-- The aliased, not-yet-flushed copies of the current record. -/
def flushCurrent (st : ParseState) : List ChangeRecord :=
  match st.current with
  | some c => List.replicate st.curCount c
  | none => []

/-- One iteration of the loop at generate_report.py lines 69-92. -/
def parseStep (sd : String) (ed : Option String) (st : ParseState) (line : String) :
    ParseState :=
  if pyStartsWith line "Change " then
    let st1 :=
      match st.current with
      | some c =>
        if inRangeB c.date sd ed then { st with curCount := st.curCount + 1 } else st
      | none => st
    let parts := pySplit line
    if 4 ≤ parts.length then
      { changes := st1.changes ++ flushCurrent st1
        current := some { number := parts.getD 1 "", date := parts.getD 3 "",
                          header := line, description := [] }
        curCount := 0 }
    else st1
  else
    match st.current with
    | some c =>
      if pyStartsWith line "\t" then
        { st with current := some { c with description := c.description ++ [line] } }
      else st
    | none => st

/-- The trailing flush of lines 94-101 (process the last change). -/
def parseFinal (sd : String) (ed : Option String) (st : ParseState) : List ChangeRecord :=
  match st.current with
  | some c =>
    let n := if inRangeB c.date sd ed then st.curCount + 1 else st.curCount
    st.changes ++ List.replicate n c
  | none => st.changes

/-- Normalisation of the end date (line 67):
`end_date.replace('-', '/') if end_date else None`.  Note the Python
truthiness test: an empty end-date string behaves like an absent one. -/
def normEndDate (end_date : Option String) : Option String :=
  match end_date with
  | some e => if e = "" then none else some (dashToSlash e)
  | none => none

/-- Core of `parse_pending_changes` on an already-split list of lines. -/
def parseLines (lines : List String) (start_date : String) (end_date : Option String) :
    List ChangeRecord :=
  let sd := dashToSlash start_date
  let ed := normEndDate end_date
  parseFinal sd ed (lines.foldl (parseStep sd ed) ⟨[], none, 0⟩)

/-- `parse_pending_changes(output, start_date, end_date)`
(generate_report.py lines 59-103). -/
def parse_pending_changes (output : String) (start_date : String)
    (end_date : Option String) : List ChangeRecord :=
  parseLines (pySplitLines output) start_date end_date

/-! Workspace path resolver (`get_workspace_depot_paths`, lines 29-57).
The function first runs `p4 client -o`; its parsing loop is modelled on the
captured output text. -/

/-- Loop state of `get_workspace_depot_paths`: the accumulated paths, the
`in_view_section` flag, and whether the Python `break` has fired. -/
structure ViewState where
  depot_paths : List String
  in_view_section : Bool
  broke : Bool
deriving DecidableEq

/-- One iteration of the loop at generate_report.py lines 36-55.  Once the
`break` at line 55 has fired, the remaining lines are not inspected. -/
def viewStep (st : ViewState) (line : String) : ViewState :=
  if st.broke then st
  else if pyStartsWith line "View:" then { st with in_view_section := true }
  else if st.in_view_section then
    let stripped := pyStrip line
    if stripped = "" then st
    else if pyStartsWith stripped "//" then
      match pySplit stripped with
      | [] => st
      | p :: _ => if pyStartsWith p "-" then st
                  else { st with depot_paths := st.depot_paths ++ [p] }
    else { st with broke := true }
  else st

/-- Core of `get_workspace_depot_paths` on an already-split list of lines. -/
def depotPathsOfLines (lines : List String) : List String :=
  (lines.foldl viewStep ⟨[], false, false⟩).depot_paths

/-- `get_workspace_depot_paths`, as a function of the workspace-definition
text produced by the `p4 client -o` child process. -/
def get_workspace_depot_paths (output : String) : List String :=
  depotPathsOfLines (pySplitLines output)

/-! Command runner (`run_p4_command`, lines 18-27).  The child process is
modelled by its observable result: exit code, captured stdout and stderr.
`subprocess.run(..., check=True)` raises `CalledProcessError` exactly when
the exit code is non-zero; the handler prints two diagnostics to stderr and
calls `sys.exit(1)`. -/

/-- Observable result of the spawned child process. -/
structure ChildResult where
  exitCode : Nat
  stdout : String
  stderr : String
deriving DecidableEq

/-- Result of a program fragment that may terminate the whole process. -/
inductive ProcResult (α : Type) where
  | ok (val : α)
  | exited (code : Nat)
deriving DecidableEq

/-- `run_p4_command` given the child's result: returns the captured stdout
on exit code 0, otherwise emits the two stderr diagnostics of lines 25-26
(the second carrying the child's stderr) and terminates with exit code 1.
The first component is the outcome, the second the emitted diagnostics. -/
def run_p4_command (r : ChildResult) : ProcResult String × List String :=
  if r.exitCode = 0 then (.ok r.stdout, [])
  else (.exited 1,
        ["Error running p4 command: Command returned non-zero exit status "
           ++ toString r.exitCode ++ ".",
         "Output: " ++ r.stderr])

/-! Summary requester (`generate_ai_report`, lines 188-218). -/

/-- The prompt assembled at line 192: `f"{custom_prompt}\n\n{report_text}"`. -/
def ai_prompt (custom_prompt report_text : String) : String :=
  custom_prompt ++ "\n\n" ++ report_text

/-- Helper for `pyBitLength`: structural recursion on a fuel bound so that
the definition reduces in the kernel. -/
def bitLenAux (fuel : Nat) (n : Nat) : Nat :=
  match fuel with
  | 0 => 0
  | fuel + 1 => if n = 0 then 0 else bitLenAux fuel (n / 2) + 1

/-- Python `int.bit_length()` of a natural number: the number of binary
digits of `n`, with `(0).bit_length() = 0`. -/
def pyBitLength (n : Nat) : Nat := bitLenAux n n

/-- Python `int.bit_length()` of a possibly negative integer: Python takes
the bit length of the absolute value, so `(-1).bit_length() = 1`. -/
def pyBitLengthInt (i : Int) : Nat := pyBitLength i.natAbs

/-- The context-size computation of lines 197-198:
`num_ctx = int((len(prompt) / 3) * 2)` followed by
`num_ctx = 1 << (num_ctx - 1).bit_length()`.  The float expression
`int((L / 3) * 2)` equals the integer `2 * L / 3` (floor division) for every
length below 2^50, where double rounding cannot move the product across an
integer; we embed that exact value. -/
def num_ctx_of (prompt : String) : Nat :=
  let n := 2 * prompt.length / 3
  1 <<< pyBitLengthInt ((n : Int) - 1)

/-- Observable outcome of the HTTP POST at lines 200-211.
`requestError` covers every `requests.exceptions.RequestException` raised by
the call itself (connection refused, timeout, redirect loop, ...).
`response status body` is a delivered HTTP response: `body = none` models a
body that is not decodable JSON (`response.json()` then raises
`JSONDecodeError`, a `RequestException`), and `body = some f` models a JSON
object whose optional field `response` is `f`. -/
inductive HttpOutcome where
  | requestError
  | response (status : Nat) (body : Option (Option String))
deriving DecidableEq

/-- `response.raise_for_status()` of the requests library: raises `HTTPError`
(a `RequestException`) exactly for status codes in [400, 600). -/
def raise_for_status (status : Nat) : Except Unit Unit :=
  if 400 ≤ status ∧ status < 600 then .error () else .ok ()

/-- The body of the `try` block at lines 195-214, propagating any
`RequestException` as `.error`. -/
def tryGenerate (o : HttpOutcome) : Except Unit String :=
  match o with
  | .requestError => .error ()
  | .response status body =>
    match raise_for_status status with
    | .error e => .error e
    | .ok _ =>
      match body with
      | none => .error ()
      | some f => .ok (f.getD "No AI report generated")

/-- `generate_ai_report` as a function of the HTTP outcome: the `except`
handler at lines 215-218 prints diagnostics and returns `None`.  The
function always returns (type `Option String`); it never terminates the
process. -/
def generate_ai_report (o : HttpOutcome) : Option String :=
  match tryGenerate o with
  | .ok s => some s
  | .error _ => none

/-! Report assembler (`generate_raw_report`, lines 106-186).  The pure
composition of the report text (lines 148-186) is modelled as a function of
the data the preceding command invocations produced: the parsed pending
changes, the submitted-changes count, the raw long-format submitted listing,
and the generation timestamp.  Sequential `StringIO.write` calls are
modelled as left folds appending to the buffer. -/

/-- The separator `'='*60`. -/
def sepLine : String := String.mk (List.replicate 60 '=')

/-- The writes of lines 162-165: for each pending change, a blank line, the
header line, then each description line, each followed by a newline. -/
def pendingWrites (buf : String) (pending : List ChangeRecord) : String :=
  pending.foldl
    (fun acc c =>
      c.description.foldl (fun a dl => a ++ (dl ++ "\n"))
        (acc ++ ("\n" ++ c.header ++ "\n")))
    buf

/-- The metadata block of lines 152-158.  Python truthiness at line 154:
an absent or empty end date displays as the generation timestamp. -/
def metaBlock (p4_user p4_workspace p4_server start_date : String)
    (end_date : Option String) (report_date : String)
    (pendingCount submittedCount : Nat) : String :=
  sepLine ++ "\n" ++
  "P4 CHANGES REPORT\n" ++
  "Date: " ++ start_date ++ " to "
    ++ (match end_date with
        | some e => if e = "" then report_date else e
        | none => report_date) ++ "\n" ++
  "User: " ++ p4_user ++ " | Workspace: " ++ p4_workspace
    ++ " | Server: " ++ p4_server ++ "\n" ++
  "Generated: " ++ report_date ++ "\n" ++
  "Pending: " ++ toString pendingCount ++ " | Submitted: "
    ++ toString submittedCount ++ "\n" ++
  sepLine ++ "\n\n"

/-- The report-text composition of generate_report.py lines 148-186, given
the outputs of the earlier queries: write the metadata block, then the
pending changes (or the notice of line 167), then the raw long-format
submitted listing followed by a newline when its strip is non-empty (or the
notice of line 184). -/
def generate_raw_report (p4_user p4_workspace p4_server start_date : String)
    (end_date : Option String) (report_date : String)
    (pending : List ChangeRecord) (submittedCount : Nat)
    (submittedFull : String) : String :=
  let buf := metaBlock p4_user p4_workspace p4_server start_date end_date
    report_date pending.length submittedCount
  let buf := if pending.isEmpty then buf ++ "No pending changes found for this period.\n"
             else pendingWrites buf pending
  if pyStrip submittedFull = "" then buf ++ "No submitted changes found for this period.\n"
  else buf ++ (submittedFull ++ "\n")

/-! Specification-side definitions, used only on the right-hand side of
refinement statements.  Each follows the wording of the specification (or of
an amended claim) rather than the source code. -/

/-- Concatenation of the strings produced by `f` over a list, recursively. -/
def concatMapStr {α : Type} (f : α → String) : List α → String
  | [] => ""
  | x :: xs => f x ++ concatMapStr f xs

/-- Spec wording for one pending record: its header line followed by its
description lines (with the separating blank line the report uses). -/
def recordBlockSpec (c : ChangeRecord) : String :=
  "\n" ++ c.header ++ "\n" ++ concatMapStr (fun dl => dl ++ "\n") c.description

/-- Spec wording for the pending section: each parsed record's block when
the parsed pending list is non-empty, a literal notice otherwise. -/
def pendingSectionSpec (pending : List ChangeRecord) : String :=
  if pending = [] then "No pending changes found for this period.\n"
  else concatMapStr recordBlockSpec pending

/-- Spec wording for the submitted section: the raw long-format listing text
verbatim (newline-terminated) when non-blank, a literal notice otherwise. -/
def submittedSectionSpec (submittedFull : String) : String :=
  if pyStrip submittedFull = "" then "No submitted changes found for this period.\n"
  else submittedFull ++ "\n"

/-- Amended-claim wording for the summary requester: a raised request
exception, an error status (4xx/5xx), or an undecodable body is a failure
(no result); otherwise the generated-text field is returned, or the literal
placeholder when the field is absent. -/
def aiReportSpec (o : HttpOutcome) : Option String :=
  match o with
  | .requestError => none
  | .response status body =>
    if 400 ≤ status ∧ status < 600 then none
    else
      match body with
      | none => none
      | some (some t) => some t
      | some none => some "No AI report generated"

/-- Spec wording: the least power of two that is at least `n` (meaningful
for `n ≥ 1`), i.e. `n` rounded up to the next power of two. -/
def nextPowTwoSpec (n : Nat) : Nat := 2 ^ Nat.clog 2 n

/-- Being a power of two. -/
def IsPowTwo (n : Nat) : Prop := ∃ k, n = 2 ^ k

/-! Analysis helpers over the parser state (used only in statements and
proofs, not part of the embedded code). -/

/-- The header of the still-open record, if any. -/
def pendingHeader (st : ParseState) : List String :=
  match st.current with
  | some c => [c.header]
  | none => []

/-- The still-open record, if any, passes the in-range test. -/
def currentInRange (sd : String) (ed : Option String) (st : ParseState) : Prop :=
  match st.current with
  | some c => inRangeB c.date sd ed = true
  | none => True

/-- A line is a header line when it starts with the literal "Change ". -/
def isHeaderLine (l : String) : Bool := pyStartsWith l "Change "

/-! Helper lemmas. -/

theorem bitLenAux_correct (fuel : Nat) : ∀ n : Nat, n ≤ fuel →
    bitLenAux fuel n = if n = 0 then 0 else Nat.log 2 n + 1 := by
  induction fuel with
  | zero =>
    intro n hn
    interval_cases n
    simp [bitLenAux]
  | succ fuel ih =>
    intro n hn
    by_cases h0 : n = 0
    · simp [bitLenAux, h0]
    · rw [bitLenAux, if_neg h0, if_neg h0, ih (n / 2) (by omega)]
      by_cases h1 : n / 2 = 0
      · have : n = 1 := by omega
        simp [h1, this]
      · rw [if_neg h1,
           show Nat.log 2 n = Nat.log 2 (n / 2) + 1 from
             Nat.log_of_one_lt_of_le (by norm_num) (by omega)]

theorem pyBitLength_eq (n : Nat) :
    pyBitLength n = if n = 0 then 0 else Nat.log 2 n + 1 :=
  bitLenAux_correct n n le_rfl

theorem one_shiftLeft_pyBitLength_pred {n : Nat} (hn : 1 ≤ n) :
    1 <<< pyBitLength (n - 1) = 2 ^ Nat.clog 2 n := by
  rw [Nat.shiftLeft_eq, one_mul, pyBitLength_eq]
  rcases Nat.lt_or_ge n 2 with h2 | h2
  · have : n = 1 := by omega
    subst this
    simp [Nat.clog_one_right]
  · have hpred : n - 1 ≠ 0 := by omega
    rw [if_neg hpred]
    congr 1
    have hle : Nat.clog 2 n ≤ Nat.log 2 (n - 1) + 1 := by
      rw [← Nat.le_pow_iff_clog_le (by norm_num)]
      have := Nat.lt_pow_succ_log_self (b := 2) (by norm_num) (n - 1)
      omega
    have hge : Nat.log 2 (n - 1) + 1 ≤ Nat.clog 2 n := by
      have hlt : Nat.log 2 (n - 1) < Nat.clog 2 n := by
        rw [← Nat.pow_lt_iff_lt_clog (by norm_num)]
        have := Nat.pow_log_le_self 2 hpred
        omega
      omega
    omega

theorem num_ctx_of_eq_pow (p : String) :
    num_ctx_of p = 2 ^ pyBitLengthInt ((2 * p.length / 3 : Nat) - 1) := by
  rw [num_ctx_of, Nat.shiftLeft_eq, one_mul]

theorem num_ctx_of_eq_nextPowTwoSpec {p : String} (hp : 2 ≤ p.length) :
    num_ctx_of p = nextPowTwoSpec (2 * p.length / 3) := by
  have h1 : 1 ≤ 2 * p.length / 3 := by
    have : 4 ≤ 2 * p.length := by omega
    omega
  rw [num_ctx_of, nextPowTwoSpec]
  have habs : ((2 * p.length / 3 : Nat) : Int) - 1 = ((2 * p.length / 3 - 1 : Nat) : Int) := by
    omega
  rw [pyBitLengthInt, habs, Int.natAbs_ofNat]
  exact one_shiftLeft_pyBitLength_pred h1

theorem nextPowTwoSpec_le_pow {n k : Nat} (h : n ≤ 2 ^ k) : nextPowTwoSpec n ≤ 2 ^ k := by
  rw [nextPowTwoSpec]
  exact Nat.pow_le_pow_right (by norm_num) ((Nat.le_pow_iff_clog_le (by norm_num)).mp h)

theorem le_nextPowTwoSpec (n : Nat) : n ≤ nextPowTwoSpec n :=
  Nat.le_pow_clog (by norm_num) n

theorem pyStartsWith_tab_not_change {l : String} (h : pyStartsWith l "\t" = true) :
    pyStartsWith l "Change " = false := by
  obtain ⟨data⟩ := l
  rw [pyStartsWith, show ("\t" : String).data = ['\t'] from rfl] at h
  rw [pyStartsWith, show ("Change " : String).data = ['C','h','a','n','g','e',' '] from rfl]
  match data with
  | [] => exact absurd h (by decide)
  | c :: cs =>
    rw [List.isPrefixOf_cons₂] at h
    have hc : c = '\t' :=
      ((beq_iff_eq.mp ((Bool.and_eq_true _ _).mp h).1)).symm
    subst hc
    rw [List.isPrefixOf_cons₂, show ('C' == '\t') = false from rfl, Bool.false_and]

theorem parseStep_header_some {sd : String} {ed : Option String} {st : ParseState}
    {line : String} {c : ChangeRecord}
    (hc : st.current = some c) (hin : inRangeB c.date sd ed = true)
    (hst : pyStartsWith line "Change " = true) (h4 : 4 ≤ (pySplit line).length) :
    parseStep sd ed st line =
      { changes := st.changes ++ List.replicate (st.curCount + 1) c
        current := some { number := (pySplit line).getD 1 ""
                          date := (pySplit line).getD 3 ""
                          header := line, description := [] }
        curCount := 0 } := by
  rw [parseStep]
  rw [hst]
  simp only [if_true]
  rw [hc]
  simp only [hin, if_true]
  rw [if_pos h4]
  simp [flushCurrent]

theorem parseStep_header_none {sd : String} {ed : Option String} {st : ParseState}
    {line : String}
    (hc : st.current = none)
    (hst : pyStartsWith line "Change " = true) (h4 : 4 ≤ (pySplit line).length) :
    parseStep sd ed st line =
      { changes := st.changes
        current := some { number := (pySplit line).getD 1 ""
                          date := (pySplit line).getD 3 ""
                          header := line, description := [] }
        curCount := 0 } := by
  rw [parseStep]
  rw [hst]
  simp only [if_true]
  rw [hc]
  rw [if_pos h4]
  simp [flushCurrent, hc]

theorem parseStep_other_none {sd : String} {ed : Option String} {st : ParseState}
    {line : String}
    (hc : st.current = none) (hst : pyStartsWith line "Change " = false) :
    parseStep sd ed st line = st := by
  rw [parseStep]
  rw [hst]
  simp only [Bool.false_eq_true, if_false]
  rw [hc]

theorem parseStep_tab_some {sd : String} {ed : Option String} {st : ParseState}
    {line : String} {c : ChangeRecord}
    (hc : st.current = some c) (htab : pyStartsWith line "\t" = true) :
    parseStep sd ed st line =
      { st with current := some { c with description := c.description ++ [line] } } := by
  rw [parseStep]
  rw [pyStartsWith_tab_not_change htab]
  simp only [Bool.false_eq_true, if_false]
  rw [hc]
  rw [htab]
  simp only [if_true]

theorem parseStep_other_some {sd : String} {ed : Option String} {st : ParseState}
    {line : String} {c : ChangeRecord}
    (hc : st.current = some c) (hst : pyStartsWith line "Change " = false)
    (htab : pyStartsWith line "\t" = false) :
    parseStep sd ed st line = st := by
  rw [parseStep]
  rw [hst]
  simp only [Bool.false_eq_true, if_false]
  rw [hc]
  rw [htab]
  simp only [Bool.false_eq_true, if_false]

theorem parseStep_not_header_preserved {sd : String} {ed : Option String}
    {st : ParseState} {line : String} (hst : pyStartsWith line "Change " = false) :
    (parseStep sd ed st line).changes = st.changes ∧
    (parseStep sd ed st line).curCount = st.curCount ∧
    pendingHeader (parseStep sd ed st line) = pendingHeader st ∧
    (currentInRange sd ed st → currentInRange sd ed (parseStep sd ed st line)) := by
  match hc : st.current with
  | none =>
    rw [parseStep_other_none hc hst]
    exact ⟨rfl, rfl, rfl, fun h => h⟩
  | some c =>
    by_cases htab : pyStartsWith line "\t" = true
    · rw [parseStep_tab_some hc htab]
      refine ⟨rfl, rfl, ?_, ?_⟩
      · simp [pendingHeader, hc]
      · intro h
        simp only [currentInRange, hc] at h
        simpa [currentInRange] using h
    · rw [parseStep_other_some hc hst (by simpa using htab)]
      exact ⟨rfl, rfl, rfl, fun h => h⟩

/-- Main invariant for the well-formed-headers theorem: folding any list of
lines whose header lines are well-formed and have in-range dates extends the
sequence of emitted headers by exactly the header lines, in order. -/
theorem foldl_parseStep_headers (sd : String) (ed : Option String) :
    ∀ (lines : List String) (st : ParseState),
      st.curCount = 0 →
      currentInRange sd ed st →
      (∀ l ∈ lines, pyStartsWith l "Change " = true →
        4 ≤ (pySplit l).length ∧ inRangeB ((pySplit l).getD 3 "") sd ed = true) →
      (lines.foldl (parseStep sd ed) st).curCount = 0 ∧
      currentInRange sd ed (lines.foldl (parseStep sd ed) st) ∧
      (lines.foldl (parseStep sd ed) st).changes.map ChangeRecord.header ++
          pendingHeader (lines.foldl (parseStep sd ed) st) =
        (st.changes.map ChangeRecord.header ++ pendingHeader st) ++
          lines.filter isHeaderLine := by
  intro lines
  induction lines with
  | nil =>
    intro st h0 hcir _
    simpa using ⟨h0, hcir⟩
  | cons l ls ih =>
    intro st h0 hcir hwf
    have hws := hwf l (List.mem_cons_self l ls) -- used when l is a header
    have htail : ∀ x ∈ ls, pyStartsWith x "Change " = true →
        4 ≤ (pySplit x).length ∧ inRangeB ((pySplit x).getD 3 "") sd ed = true :=
      fun x hx => hwf x (List.mem_cons_of_mem l hx)
    rw [List.foldl_cons]
    by_cases hl : pyStartsWith l "Change " = true
    · obtain ⟨h4, hin⟩ := hws hl
      have hfilter : (l :: ls).filter isHeaderLine = l :: ls.filter isHeaderLine := by
        simp [List.filter_cons, isHeaderLine, hl]
      match hc : st.current with
      | none =>
        rw [parseStep_header_none hc hl h4]
        have hcir' : currentInRange sd ed
            ⟨st.changes,
             some { number := (pySplit l).getD 1 "", date := (pySplit l).getD 3 "",
                    header := l, description := [] }, 0⟩ := by
          simpa [currentInRange] using hin
        obtain ⟨hz, hir, heq⟩ := ih _ rfl hcir' htail
        refine ⟨hz, hir, ?_⟩
        rw [heq, hfilter]
        simp [pendingHeader, hc]
      | some c =>
        have hcin : inRangeB c.date sd ed = true := by
          simpa [currentInRange, hc] using hcir
        rw [parseStep_header_some hc hcin hl h4]
        have hcir' : currentInRange sd ed
            ⟨st.changes ++ List.replicate (st.curCount + 1) c,
             some { number := (pySplit l).getD 1 "", date := (pySplit l).getD 3 "",
                    header := l, description := [] }, 0⟩ := by
          simpa [currentInRange] using hin
        obtain ⟨hz, hir, heq⟩ := ih _ rfl hcir' htail
        refine ⟨hz, hir, ?_⟩
        rw [heq, hfilter, h0]
        simp [pendingHeader, hc, List.replicate]
    · have hl' : pyStartsWith l "Change " = false := by simpa using hl
      obtain ⟨hch, hcc, hph, hcirp⟩ :=
        @parseStep_not_header_preserved sd ed st l hl'
      have hfilter : (l :: ls).filter isHeaderLine = ls.filter isHeaderLine := by
        simp [List.filter_cons, isHeaderLine, hl']
      have := ih (parseStep sd ed st l) (hcc.trans h0) (hcirp hcir) htail
      obtain ⟨hz, hir, heq⟩ := this
      refine ⟨hz, hir, ?_⟩
      rw [heq, hch, hph, hfilter]

theorem parseFinal_map_header {sd : String} {ed : Option String} {st : ParseState}
    (h0 : st.curCount = 0) (hir : currentInRange sd ed st) :
    (parseFinal sd ed st).map ChangeRecord.header =
      st.changes.map ChangeRecord.header ++ pendingHeader st := by
  match hc : st.current with
  | none => simp [parseFinal, hc, pendingHeader]
  | some c =>
    have hin : inRangeB c.date sd ed = true := by
      simpa [currentInRange, hc] using hir
    simp [parseFinal, hc, hin, h0, pendingHeader, List.replicate]

theorem foldl_parseStep_tab_prefix (sd : String) (ed : Option String) :
    ∀ pre : List String, (∀ x ∈ pre, pyStartsWith x "\t" = true) →
      pre.foldl (parseStep sd ed) ⟨[], none, 0⟩ = ⟨[], none, 0⟩ := by
  intro pre
  induction pre with
  | nil => intro _; rfl
  | cons x xs ih =>
    intro hall
    rw [List.foldl_cons,
        parseStep_other_none rfl
          (pyStartsWith_tab_not_change (hall x (List.mem_cons_self x xs)))]
    exact ih fun y hy => hall y (List.mem_cons_of_mem x hy)

theorem pyStrip_eq_empty_mem {b : String} (hb : pyStrip b = "") :
    ∀ c ∈ b.data, isPySpace c = true := by
  obtain ⟨data⟩ := b
  intro c hc
  have h1 : pyStripList data = [] := by
    have := congrArg String.data hb
    simpa [pyStrip] using this
  rw [pyStripList] at h1
  have h2 : (data.dropWhile isPySpace).reverse.dropWhile isPySpace = [] := by
    simpa using congrArg List.reverse h1
  have h4 : ∀ x ∈ data.dropWhile isPySpace, isPySpace x = true := by
    intro x hx
    exact List.dropWhile_eq_nil_iff.mp h2 x (List.mem_reverse.mpr hx)
  have h5 := List.takeWhile_append_dropWhile (p := isPySpace) (l := data)
  have hc' : c ∈ data.takeWhile isPySpace ++ data.dropWhile isPySpace := by
    rw [h5]; exact hc
  rcases List.mem_append.mp hc' with h | h
  · exact List.mem_takeWhile_imp h
  · exact h4 c h

theorem not_startsWith_view_of_blank {b : String} (hb : pyStrip b = "") :
    pyStartsWith b "View:" = false := by
  have hall := pyStrip_eq_empty_mem hb
  obtain ⟨data⟩ := b
  match data with
  | [] => rfl
  | c :: cs =>
    by_contra h
    have h' : pyStartsWith ⟨c :: cs⟩ "View:" = true := by
      simpa using h
    rw [pyStartsWith, show ("View:" : String).data = ['V','i','e','w',':'] from rfl,
        List.isPrefixOf_cons₂] at h'
    have hcV : c = 'V' := (beq_iff_eq.mp ((Bool.and_eq_true _ _).mp h').1).symm
    have hmem : isPySpace c = true := hall c (List.mem_cons_self c cs)
    rw [hcV] at hmem
    exact absurd hmem (by decide)

theorem viewStep_blank {b : String} (hb : pyStrip b = "") (st : ViewState) :
    viewStep st b = st := by
  have hview := not_startsWith_view_of_blank hb
  rw [viewStep]
  cases hbrk : st.broke with
  | true => simp
  | false =>
    simp only [Bool.false_eq_true, if_false]
    rw [hview]
    simp only [Bool.false_eq_true, if_false]
    cases hiv : st.in_view_section with
    | false => simp
    | true => simp [hb]

theorem foldl_desc_append (ds : List String) : ∀ a : String,
    ds.foldl (fun x dl => x ++ (dl ++ "\n")) a =
      a ++ concatMapStr (fun dl => dl ++ "\n") ds := by
  induction ds with
  | nil => intro a; simp [concatMapStr, String.append_empty]
  | cons d ds ih =>
    intro a
    rw [List.foldl_cons, ih, concatMapStr, String.append_assoc]

theorem pendingWrites_eq (pending : List ChangeRecord) : ∀ buf : String,
    pendingWrites buf pending = buf ++ concatMapStr recordBlockSpec pending := by
  induction pending with
  | nil => intro buf; simp [pendingWrites, concatMapStr, String.append_empty]
  | cons c cs ih =>
    intro buf
    rw [pendingWrites, List.foldl_cons]
    have hstep :
        (cs.foldl
          (fun acc c =>
            c.description.foldl (fun a dl => a ++ (dl ++ "\n"))
              (acc ++ ("\n" ++ c.header ++ "\n")))
          (c.description.foldl (fun a dl => a ++ (dl ++ "\n"))
            (buf ++ ("\n" ++ c.header ++ "\n")))) =
        pendingWrites
          (c.description.foldl (fun a dl => a ++ (dl ++ "\n"))
            (buf ++ ("\n" ++ c.header ++ "\n"))) cs := rfl
    rw [hstep, ih, foldl_desc_append, concatMapStr, recordBlockSpec]
    simp [String.append_assoc]

/-! Claim theorems. -/

/-- Claim C1: the claim states that a line beginning with "Change " that
splits into fewer than 4 tokens opens no new record and leaves the parsed
output unaffected, each record appearing exactly once.  The code instead
finalises the in-progress record at the malformed line without closing it,
so the record is emitted twice: on the first input below the parser returns
record 11 twice, while deleting the malformed line (second input) returns
each record exactly once. -/
theorem parse_malformed_header_duplicates_record :
    parse_pending_changes
        "Change 11 on 2024/01/05 by alice@ws\nChange oops\nChange 12 on 2024/01/06 by alice@ws"
        "2024-01-01" (some "2024-12-31") =
      [{ number := "11", date := "2024/01/05",
         header := "Change 11 on 2024/01/05 by alice@ws", description := [] },
       { number := "11", date := "2024/01/05",
         header := "Change 11 on 2024/01/05 by alice@ws", description := [] },
       { number := "12", date := "2024/01/06",
         header := "Change 12 on 2024/01/06 by alice@ws", description := [] }] ∧
    parse_pending_changes
        "Change 11 on 2024/01/05 by alice@ws\nChange 12 on 2024/01/06 by alice@ws"
        "2024-01-01" (some "2024-12-31") =
      [{ number := "11", date := "2024/01/05",
         header := "Change 11 on 2024/01/05 by alice@ws", description := [] },
       { number := "12", date := "2024/01/06",
         header := "Change 12 on 2024/01/06 by alice@ws", description := [] }] := by
  decide

/-- Claim C2: the claim states that an exclusion mapping (first token
beginning with a dash) is skipped and view parsing continues, so only
non-excluded depot paths are returned.  In the code a stripped exclusion
line does not start with "//", so it takes the `else: break` branch and
terminates view parsing: with the exclusion first, the resolver returns no
path at all instead of the normal path; with the exclusion second, every
path after it is also lost. -/
theorem resolver_stops_at_exclusion_mapping :
    get_workspace_depot_paths
        "Client: ws\n\nView:\n\t-//depot/excl/... //ws/excl/...\n\t//depot/inc/... //ws/inc/..." =
      [] ∧
    get_workspace_depot_paths
        "View:\n\t//depot/inc/... //ws/inc/...\n\t-//depot/excl/... //ws/excl/...\n\t//depot/after/... //ws/after/..." =
      ["//depot/inc/..."] := by
  decide

/-- Claim C3: for every change-listing text whose "Change "-prefixed lines
are all well-formed (at least 4 tokens) with dates inside the requested
range, the parser returns exactly one record per header line, in input
order: the headers of the returned records are precisely the header lines
of the input, so the count is N and the order is the input order. -/
theorem parse_wellformed_headers_count_order
    (output start_date : String) (end_date : Option String)
    (hwf : ∀ l ∈ pySplitLines output, pyStartsWith l "Change " = true →
      4 ≤ (pySplit l).length ∧
        inRangeB ((pySplit l).getD 3 "") (dashToSlash start_date)
          (normEndDate end_date) = true) :
    (parse_pending_changes output start_date end_date).map ChangeRecord.header =
      (pySplitLines output).filter isHeaderLine ∧
    (parse_pending_changes output start_date end_date).length =
      ((pySplitLines output).filter isHeaderLine).length := by
  have hmain :
      (parse_pending_changes output start_date end_date).map ChangeRecord.header =
        (pySplitLines output).filter isHeaderLine := by
    rw [parse_pending_changes]
    simp only [parseLines]
    obtain ⟨hz, hir, heq⟩ :=
      foldl_parseStep_headers (dashToSlash start_date) (normEndDate end_date)
        (pySplitLines output) ⟨[], none, 0⟩ rfl trivial hwf
    rw [parseFinal_map_header hz hir, heq]
    rfl
  refine ⟨hmain, ?_⟩
  have := congrArg List.length hmain
  simpa using this

/-- Witness for C3, on the specification's own example listing. -/
theorem parse_wellformed_headers_count_order_check :
    (parse_pending_changes
        "Change 101 on 2024/01/05 by alice@ws\n\tfix bug\nChange 102 on 2024/01/20 by alice@ws\n\tadd feature"
        "2024-01-01" (some "2024-01-31")).map ChangeRecord.header =
      ["Change 101 on 2024/01/05 by alice@ws", "Change 102 on 2024/01/20 by alice@ws"] ∧
    (parse_pending_changes
        "Change 101 on 2024/01/05 by alice@ws\n\tfix bug\nChange 102 on 2024/01/20 by alice@ws\n\tadd feature"
        "2024-01-01" (some "2024-01-31")).length = 2 := by
  obtain ⟨h1, h2⟩ :=
    parse_wellformed_headers_count_order
      "Change 101 on 2024/01/05 by alice@ws\n\tfix bug\nChange 102 on 2024/01/20 by alice@ws\n\tadd feature"
      "2024-01-01" (some "2024-01-31") (by decide)
  exact ⟨h1.trans (by decide), h2.trans (by decide)⟩

/-- Claim C4: date filtering is boundary-inclusive under the normalised
YYYY/MM/DD string comparison.  For a one-line listing holding a single
well-formed header, the record is returned exactly when its date passes the
inclusive comparison against the normalised start and end dates. -/
theorem parse_single_header_boundary_inclusive
    (line start_date end_date : String)
    (hl : pySplitLines line = [line])
    (hst : pyStartsWith line "Change " = true)
    (h4 : 4 ≤ (pySplit line).length)
    (he : end_date ≠ "") :
    parse_pending_changes line start_date (some end_date) =
      (if inRangeB ((pySplit line).getD 3 "") (dashToSlash start_date)
            (some (dashToSlash end_date)) = true
       then [{ number := (pySplit line).getD 1 "", date := (pySplit line).getD 3 "",
               header := line, description := [] }]
       else []) := by
  rw [parse_pending_changes, hl]
  simp only [parseLines, normEndDate]
  rw [if_neg he]
  simp only [List.foldl_cons, List.foldl_nil]
  rw [parseStep_header_none rfl hst h4]
  by_cases hin : inRangeB ((pySplit line).getD 3 "") (dashToSlash start_date)
      (some (dashToSlash end_date)) = true
  · rw [if_pos hin]
    have hin2 := hin
    simp only [List.getD_eq_getElem?_getD] at hin2
    simp [parseFinal, hin2, List.replicate]
  · rw [if_neg hin]
    have hin' : inRangeB ((pySplit line).getD 3 "") (dashToSlash start_date)
        (some (dashToSlash end_date)) = false := by
      simpa using hin
    simp only [List.getD_eq_getElem?_getD] at hin'
    simp [parseFinal, hin', List.replicate]

/-- Witness for C4: a record dated on the start boundary and one dated on
the end boundary are included; records one day before the start and one day
after the end are excluded. -/
theorem parse_single_header_boundary_inclusive_check :
    parse_pending_changes "Change 101 on 2024/01/05 by alice@ws"
        "2024-01-05" (some "2024-01-10") =
      [{ number := "101", date := "2024/01/05",
         header := "Change 101 on 2024/01/05 by alice@ws", description := [] }] ∧
    parse_pending_changes "Change 101 on 2024/01/10 by alice@ws"
        "2024-01-05" (some "2024-01-10") =
      [{ number := "101", date := "2024/01/10",
         header := "Change 101 on 2024/01/10 by alice@ws", description := [] }] ∧
    parse_pending_changes "Change 101 on 2024/01/04 by alice@ws"
        "2024-01-05" (some "2024-01-10") = [] ∧
    parse_pending_changes "Change 101 on 2024/01/11 by alice@ws"
        "2024-01-05" (some "2024-01-10") = [] := by
  refine ⟨?_, ?_, ?_, ?_⟩
  · exact (parse_single_header_boundary_inclusive
      "Change 101 on 2024/01/05 by alice@ws" "2024-01-05" "2024-01-10"
      (by decide) (by decide) (by decide) (by decide)).trans (by decide)
  · exact (parse_single_header_boundary_inclusive
      "Change 101 on 2024/01/10 by alice@ws" "2024-01-05" "2024-01-10"
      (by decide) (by decide) (by decide) (by decide)).trans (by decide)
  · exact (parse_single_header_boundary_inclusive
      "Change 101 on 2024/01/04 by alice@ws" "2024-01-05" "2024-01-10"
      (by decide) (by decide) (by decide) (by decide)).trans (by decide)
  · exact (parse_single_header_boundary_inclusive
      "Change 101 on 2024/01/11 by alice@ws" "2024-01-05" "2024-01-10"
      (by decide) (by decide) (by decide) (by decide)).trans (by decide)

/-- Claim C5 counterexample: the context-size hint is not monotonically
non-decreasing over all prompt strings.  A prompt of length 1 gets hint 2
(the truncated token estimate is 0, and Python computes
`(-1).bit_length() = 1`, so `1 << 1 = 2`), while a prompt of length 2 gets
hint 1: length grows but the hint shrinks. -/
theorem num_ctx_not_monotone_short_prompts :
    ("a" : String).length ≤ ("ab" : String).length ∧
    num_ctx_of "ab" < num_ctx_of "a" := by
  decide

/-- Claim C5 as amended: the hint is always a power of two that is at least
1; and for every prompt of length at least 2 — which covers every prompt the
program builds, since the assembled prompt always contains the two-newline
separator — the hint equals the token estimate `2 * length / 3` rounded up
to the next power of two, and is monotonically non-decreasing in prompt
length. -/
theorem num_ctx_power_of_two_monotone_amended (p q custom report : String) :
    IsPowTwo (num_ctx_of p) ∧ 1 ≤ num_ctx_of p ∧
    2 ≤ (ai_prompt custom report).length ∧
    (2 ≤ p.length → num_ctx_of p = nextPowTwoSpec (2 * p.length / 3)) ∧
    (2 ≤ p.length → p.length ≤ q.length → num_ctx_of p ≤ num_ctx_of q) := by
  refine ⟨⟨_, num_ctx_of_eq_pow p⟩, ?_, ?_,
    fun hp => num_ctx_of_eq_nextPowTwoSpec hp, fun hp hq => ?_⟩
  · rw [num_ctx_of_eq_pow]
    exact Nat.one_le_two_pow
  · rw [ai_prompt, String.length_append, String.length_append]
    have : ("\n\n" : String).length = 2 := rfl
    omega
  · rw [num_ctx_of_eq_nextPowTwoSpec hp, num_ctx_of_eq_nextPowTwoSpec (hp.trans hq),
        nextPowTwoSpec, nextPowTwoSpec]
    exact Nat.pow_le_pow_right (by norm_num)
      (Nat.clog_mono_right 2 (Nat.div_le_div_right (by omega)))

/-- Witness for the amended C5. -/
theorem num_ctx_power_of_two_monotone_amended_check :
    IsPowTwo (num_ctx_of "abc") ∧
    num_ctx_of "abcd" = nextPowTwoSpec (2 * ("abcd" : String).length / 3) ∧
    num_ctx_of "abcd" ≤ num_ctx_of "abcdefgh" ∧
    2 ≤ (ai_prompt "summarise this" "the report").length :=
  ⟨(num_ctx_power_of_two_monotone_amended "abc" "abc" "" "").1,
   (num_ctx_power_of_two_monotone_amended "abcd" "abcd" "" "").2.2.2.1 (by decide),
   (num_ctx_power_of_two_monotone_amended "abcd" "abcdefgh" "" "").2.2.2.2
     (by decide) (by decide),
   (num_ctx_power_of_two_monotone_amended "" "" "summarise this" "the report").2.2.1⟩

/-- Claim C6 counterexample: the claim lists any non-2xx status as a failure
surfaced as absence-of-result, but `raise_for_status` only raises for 4xx
and 5xx.  A delivered 300 response whose JSON body carries the generated
text is returned as a success, although 300 is not a 2xx status. -/
theorem ai_report_success_on_non_2xx_status :
    generate_ai_report (.response 300 (some (some "summary"))) = some "summary" ∧
    ¬(200 ≤ 300 ∧ 300 < 300) := by
  exact ⟨rfl, by omega⟩

/-- Claim C6 as amended: the summary requester is a total function into an
optional result, never a process exit.  A raised request exception (covering
connection refused and timeouts), an error status in [400, 600), or an
undecodable body yields the failure `none`; any other delivered response
yields a success: the generated-text field when present, or the literal
placeholder when absent. -/
theorem ai_report_failure_contract_amended (o : HttpOutcome) :
    generate_ai_report o = aiReportSpec o := by
  match o with
  | .requestError => rfl
  | .response status body =>
    simp only [generate_ai_report, tryGenerate, aiReportSpec, raise_for_status]
    by_cases h : 400 ≤ status ∧ status < 600
    · rw [if_pos h, if_pos h]
    · rw [if_neg h, if_neg h]
      match body with
      | none => rfl
      | some none => rfl
      | some (some t) => rfl

/-- Claim C7: the command runner returns the child's captured standard
output exactly when the child exits with status zero; on any non-zero exit
status it terminates the program with exit code 1 after emitting a
diagnostic carrying the child's standard error. -/
theorem run_p4_returns_stdout_or_exits (r : ChildResult) :
    (r.exitCode = 0 → run_p4_command r = (.ok r.stdout, [])) ∧
    (r.exitCode ≠ 0 →
      (run_p4_command r).1 = .exited 1 ∧
      ("Output: " ++ r.stderr) ∈ (run_p4_command r).2) := by
  constructor
  · intro h
    rw [run_p4_command, if_pos h]
  · intro h
    rw [run_p4_command, if_neg h]
    exact ⟨rfl, by simp⟩

/-- Witness for C7: a zero-exit child yields its stdout with no diagnostic,
and an exit status 2 yields process termination with the child's stderr in
the diagnostics. -/
theorem run_p4_returns_stdout_or_exits_check :
    run_p4_command ⟨0, "out", "err"⟩ = (.ok "out", []) ∧
    ((run_p4_command ⟨2, "out", "oops"⟩).1 = .exited 1 ∧
      ("Output: " ++ "oops") ∈ (run_p4_command ⟨2, "out", "oops"⟩).2) :=
  ⟨(run_p4_returns_stdout_or_exits ⟨0, "out", "err"⟩).1 rfl,
   (run_p4_returns_stdout_or_exits ⟨2, "out", "oops"⟩).2 (by decide)⟩

/-- Claim C8: description lines.  First, any prefix of tab-indented lines
occurring before any header line is dropped: parsing the remaining lines is
unaffected.  Second, while a record is in progress, a line beginning with a
tab is appended verbatim at the end of that record's description.  Third, a
concrete run shows two tab lines accumulating in original order. -/
theorem parse_description_attachment
    (start_date : String) (end_date : Option String) (pre rest : List String)
    (sd : String) (ed : Option String) (st : ParseState) (c : ChangeRecord)
    (l : String) :
    ((∀ x ∈ pre, pyStartsWith x "\t" = true) →
      parseLines (pre ++ rest) start_date end_date =
        parseLines rest start_date end_date) ∧
    (st.current = some c → pyStartsWith l "\t" = true →
      parseStep sd ed st l =
        { st with current := some { c with description := c.description ++ [l] } }) ∧
    parse_pending_changes "Change 7 on 2024/01/05 by u@w\n\talpha\n\tbeta"
        "2024-01-01" (some "2024-12-31") =
      [{ number := "7", date := "2024/01/05",
         header := "Change 7 on 2024/01/05 by u@w",
         description := ["\talpha", "\tbeta"] }] := by
  refine ⟨?_, fun hc htab => parseStep_tab_some hc htab, by decide⟩
  intro hpre
  simp only [parseLines]
  rw [List.foldl_append, foldl_parseStep_tab_prefix _ _ pre hpre]

/-- Witness for C8: a tab line before any header does not change the result,
and a single step on a tab line appends it to the open record. -/
theorem parse_description_attachment_check :
    parseLines ["\tdropped", "Change 9 on 2024/03/01 by u@w"]
        "2024-01-01" (some "2024-12-31") =
      parseLines ["Change 9 on 2024/03/01 by u@w"] "2024-01-01" (some "2024-12-31") ∧
    parseStep "2024/01/01" (some "2024/12/31")
        ⟨[], some { number := "9", date := "2024/03/01",
                    header := "Change 9 on 2024/03/01 by u@w", description := [] }, 0⟩
        "\tnote" =
      ⟨[], some { number := "9", date := "2024/03/01",
                  header := "Change 9 on 2024/03/01 by u@w",
                  description := ["\tnote"] }, 0⟩ :=
  ⟨(parse_description_attachment "2024-01-01" (some "2024-12-31")
      ["\tdropped"] ["Change 9 on 2024/03/01 by u@w"] "" none ⟨[], none, 0⟩
      { number := "", date := "", header := "", description := [] } "").1
      (by decide),
   (parse_description_attachment "" none [] [] "2024/01/01" (some "2024/12/31")
      ⟨[], some { number := "9", date := "2024/03/01",
                  header := "Change 9 on 2024/03/01 by u@w", description := [] }, 0⟩
      { number := "9", date := "2024/03/01",
        header := "Change 9 on 2024/03/01 by u@w", description := [] }
      "\tnote").2.1 rfl (by decide)⟩

/-- Claim C9: the assembled report decomposes into the metadata block, then
the pending section (each record's header line followed by its description
lines when the pending list is non-empty, a literal notice otherwise), then
the submitted section (the raw long-format listing verbatim,
newline-terminated, when non-blank, a literal notice otherwise). -/
theorem raw_report_section_composition
    (p4_user p4_workspace p4_server start_date : String) (end_date : Option String)
    (report_date : String) (pending : List ChangeRecord) (submittedCount : Nat)
    (submittedFull : String) :
    generate_raw_report p4_user p4_workspace p4_server start_date end_date
        report_date pending submittedCount submittedFull =
      metaBlock p4_user p4_workspace p4_server start_date end_date report_date
          pending.length submittedCount ++
        pendingSectionSpec pending ++ submittedSectionSpec submittedFull := by
  rcases pending with _ | ⟨c, cs⟩ <;> by_cases hs : pyStrip submittedFull = "" <;>
    simp [generate_raw_report, pendingSectionSpec, submittedSectionSpec, hs,
      pendingWrites_eq, String.append_assoc]

/-- Claim C10: a blank line inside the workspace-definition text is
transparent to the resolver: removing it does not change the resolved depot
paths, so paths listed after a blank line inside the View section are still
collected. -/
theorem view_blank_lines_transparent
    (output output' : String) (pre post : List String) (b : String)
    (h : pySplitLines output = pre ++ b :: post)
    (h' : pySplitLines output' = pre ++ post)
    (hb : pyStrip b = "") :
    get_workspace_depot_paths output = get_workspace_depot_paths output' := by
  rw [get_workspace_depot_paths, get_workspace_depot_paths, depotPathsOfLines,
      depotPathsOfLines, h, h', List.foldl_append, List.foldl_append,
      List.foldl_cons, viewStep_blank hb]

/-- Witness for C10: a View section with a blank line between two mappings
resolves to the same two depot paths as the section without the blank
line. -/
theorem view_blank_lines_transparent_check :
    get_workspace_depot_paths
        "View:\n\t//depot/a/... //ws/a/...\n\n\t//depot/b/... //ws/b/..." =
      get_workspace_depot_paths
        "View:\n\t//depot/a/... //ws/a/...\n\t//depot/b/... //ws/b/..." ∧
    get_workspace_depot_paths
        "View:\n\t//depot/a/... //ws/a/...\n\n\t//depot/b/... //ws/b/..." =
      ["//depot/a/...", "//depot/b/..."] :=
  ⟨view_blank_lines_transparent
      "View:\n\t//depot/a/... //ws/a/...\n\n\t//depot/b/... //ws/b/..."
      "View:\n\t//depot/a/... //ws/a/...\n\t//depot/b/... //ws/b/..."
      ["View:", "\t//depot/a/... //ws/a/..."] ["\t//depot/b/... //ws/b/..."] ""
      (by decide) (by decide) (by decide),
   by decide⟩

end ReportGen
